import Mathlib

/-!
Shallow embedding of the SparkFun Qwiic OpenLog Arduino library
(src/SparkFun_Qwiic_OpenLog_Arduino_Library.cpp).

The two-wire transport (Arduino `TwoWire`) is modelled as an explicit
`WireState` record threaded through every operation.  Its scripts play the
peripheral:

* `rx k` is the chunk of bytes the peripheral clocks out for the k-th
  `requestFrom` issued on this wire (`rxIdx` counts issued requests); the
  master receives at most the `n` bytes it asked for (`List.take n`).
* `txRes k` is the result code `endTransmission` reports for the k-th
  completed write transaction (`txIdx` counts them); 0 means acknowledged.

The wire also keeps observation logs used by the theorems: `sent` records
every completed write transaction (address, payload), `reqs` records every
read request (address, size), and `delivered` records every byte handed to
the master, in order.

Bytes are `Nat`s reduced `% 256` wherever the C code reads them into a
`uint8_t`.  Arduino `String` values are modelled as byte lists (`List Nat`).
-/

/-- Model of the Arduino `TwoWire` bus transport. -/
structure WireState where
  rx : Nat → List Nat
  rxIdx : Nat
  txRes : Nat → Nat
  txIdx : Nat
  txAddr : Nat
  txBuf : List Nat
  sent : List (Nat × List Nat)
  reqs : List (Nat × Nat)
  delivered : List Nat

/-- TwoWire::beginTransmission: open a write transaction to `addr` with an
empty queue. -/
def beginTransmission (w : WireState) (addr : Nat) : WireState :=
  { w with txAddr := addr, txBuf := [] }

/-- TwoWire::write of a single byte: queue it on the open transaction. -/
def wireWrite (w : WireState) (b : Nat) : WireState :=
  { w with txBuf := w.txBuf ++ [b] }

/-- Print::print of a byte sequence: queue every byte on the open
transaction. -/
def wirePrint (w : WireState) (s : List Nat) : WireState :=
  { w with txBuf := w.txBuf ++ s }

/-- TwoWire::endTransmission: commit the queued transaction, log it, and
report the scripted result code (0 = acknowledged). -/
def endTransmission (w : WireState) : Nat × WireState :=
  (w.txRes w.txIdx,
   { w with txIdx := w.txIdx + 1, txBuf := [],
            sent := w.sent ++ [(w.txAddr, w.txBuf)] })

/-- TwoWire::requestFrom: issue a read request of `n` bytes; the peripheral
answers with the next scripted chunk, of which the master receives at most
`n` bytes.  The subsequent `available()`/`read()` loop in the C code consumes
exactly the returned list. -/
def requestFrom (w : WireState) (addr n : Nat) : List Nat × WireState :=
  ((w.rx w.rxIdx).take n,
   { w with rxIdx := w.rxIdx + 1,
            reqs := w.reqs ++ [(addr, n)],
            delivered := w.delivered ++ (w.rx w.rxIdx).take n })

/-- TwoWire::read of a single byte: the first delivered byte as a `uint8_t`;
with nothing available `read()` yields -1, i.e. 255 as a `uint8_t`. -/
def wireReadByte (bytes : List Nat) : Nat :=
  match bytes with
  | [] => 255
  | b :: _ => b % 256

/-- Modelled from the spec: `I2C_BUFFER_LENGTH` is declared in the library
header, which is not part of the sources here; the spec (and the code
comments) fix the transport maximum at 32 bytes per bus transaction. -/
def I2C_BUFFER_LENGTH : Nat := 32

/-- Modelled from the spec: `STATUS_SD_INIT_GOOD` is declared in the library
header, which is not part of the sources here; the code comment block and the
spec place the SD-init-good flag at bit 0 of the status byte. -/
def STATUS_SD_INIT_GOOD : Nat := 0

/-- Session state of the driver (the private fields of class OpenLog).
The escape character and its repeat count are fixed per session (their
default values live in the header, outside these sources, so they stay
abstract here). -/
structure OpenLog where
  deviceAddress : Nat
  escapeCharacter : Nat
  escapeCharacterCount : Nat
  searchStarted : Bool

/-- ASCII bytes of a literal such as F("stat"). -/
def asciiBytes (s : String) : List Nat :=
  s.toList.map Char.toNat

/-- String(n, DEC): the decimal digits of `n` as ASCII bytes. -/
def natToDecBytes (n : Nat) : List Nat :=
  asciiBytes (Nat.repr n)

/-- OpenLog::sendCommand(command, option1, option2): one write transaction
carrying the escape characters, the verb, and each non-empty option preceded
by a single space; false exactly when `endTransmission` reports non-zero. -/
def OpenLog.sendCommand (ol : OpenLog) (w : WireState)
    (command option1 option2 : List Nat) : Bool × WireState :=
  let w1 := beginTransmission w ol.deviceAddress
  let w2 := (List.replicate ol.escapeCharacterCount ol.escapeCharacter).foldl
    wireWrite w1
  let w3 := wirePrint w2 command
  let w4 := if option1.length > 0 then wirePrint (wirePrint w3 [32]) option1
            else w3
  let w5 := if option2.length > 0 then wirePrint (wirePrint w4 [32]) option2
            else w4
  let r := endTransmission w5
  if r.1 != 0 then (false, r.2) else (true, r.2)

/-- OpenLog::sendCommand(command, option1) delegates with an empty option2. -/
def OpenLog.sendCommand2 (ol : OpenLog) (w : WireState)
    (command option1 : List Nat) : Bool × WireState :=
  OpenLog.sendCommand ol w command option1 []

/-- OpenLog::sendCommand(command) delegates with both options empty. -/
def OpenLog.sendCommand1 (ol : OpenLog) (w : WireState)
    (command : List Nat) : Bool × WireState :=
  OpenLog.sendCommand ol w command [] []

/-- Following the spec's words: the command frame is the escape character
repeated `escapeCharacterCount` times, then the verb, then a space and arg1
only if arg1 is non-empty, then a space and arg2 only if arg2 is non-empty. -/
def specCommandFrame (ol : OpenLog) (verb arg1 arg2 : List Nat) : List Nat :=
  List.replicate ol.escapeCharacterCount ol.escapeCharacter ++ verb
    ++ (if arg1 = [] then [] else 32 :: arg1)
    ++ (if arg2 = [] then [] else 32 :: arg2)

/-- OpenLog::getStatus: send "stat", request 1 byte, return it. -/
def OpenLog.getStatus (ol : OpenLog) (w : WireState) :
    Nat × OpenLog × WireState :=
  let s := OpenLog.sendCommand1 ol w (asciiBytes "stat")
  let r := requestFrom s.2 ol.deviceAddress 1
  (wireReadByte r.1, ol, r.2)

/-- OpenLog::begin(deviceAddress, wirePort): store the address (the wire
handle is the threaded `WireState`), query the status byte, succeed iff the
SD-init-good bit is set.  The commented-out `_i2cPort->begin()` in the source
is deliberately absent: the transport is never configured here. -/
def OpenLog.begin (ol : OpenLog) (w : WireState) (deviceAddress : Nat) :
    Bool × OpenLog × WireState :=
  let ol1 := { ol with deviceAddress := deviceAddress }
  let g := OpenLog.getStatus ol1 w
  (((g.1 &&& (1 <<< STATUS_SD_INIT_GOOD)) != 0), ol1, g.2.2)

/-- OpenLog::getVersion: send "ver", request 2 bytes, format
"major.minor" in decimal (46 is the ASCII dot). -/
def OpenLog.getVersion (ol : OpenLog) (w : WireState) :
    List Nat × OpenLog × WireState :=
  let s := OpenLog.sendCommand1 ol w (asciiBytes "ver")
  let r := requestFrom s.2 ol.deviceAddress 2
  (natToDecBytes (wireReadByte r.1) ++ [46]
     ++ natToDecBytes (wireReadByte (r.1.drop 1)), ol, r.2)

/-- OpenLog::setI2CAddress: send "adr <addr>" and update the stored address
unconditionally; the result only reflects the transmission. -/
def OpenLog.setI2CAddress (ol : OpenLog) (w : WireState) (addr : Nat) :
    Bool × OpenLog × WireState :=
  let s := OpenLog.sendCommand2 ol w (asciiBytes "adr") (natToDecBytes addr)
  (s.1, { ol with deviceAddress := addr }, s.2)

/-- OpenLog::append: send "append <fileName>". -/
def OpenLog.append (ol : OpenLog) (w : WireState) (fileName : List Nat) :
    Bool × OpenLog × WireState :=
  let s := OpenLog.sendCommand2 ol w (asciiBytes "append") fileName
  (s.1, ol, s.2)

/-- OpenLog::create: send "new <fileName>". -/
def OpenLog.create (ol : OpenLog) (w : WireState) (fileName : List Nat) :
    Bool × OpenLog × WireState :=
  let s := OpenLog.sendCommand2 ol w (asciiBytes "new") fileName
  (s.1, ol, s.2)

/-- OpenLog::makeDirectory: send "md <directoryName>". -/
def OpenLog.makeDirectory (ol : OpenLog) (w : WireState)
    (directoryName : List Nat) : Bool × OpenLog × WireState :=
  let s := OpenLog.sendCommand2 ol w (asciiBytes "md") directoryName
  (s.1, ol, s.2)

/-- OpenLog::changeDirectory: send "cd <directoryName>". -/
def OpenLog.changeDirectory (ol : OpenLog) (w : WireState)
    (directoryName : List Nat) : Bool × OpenLog × WireState :=
  let s := OpenLog.sendCommand2 ol w (asciiBytes "cd") directoryName
  (s.1, ol, s.2)

/-- One step of the 4-byte reply loop `fileSize <<= 8; fileSize |= incoming`
on an `int32_t` accumulator (two's-complement wraparound modelled as
`% 2^32`; `incoming` is a `uint8_t`). -/
def int32StepBE (acc b : Nat) : Nat :=
  ((acc <<< 8) % 4294967296) ||| (b % 256)

/-- Reinterpretation of the 32 accumulator bits as a signed `int32_t`. -/
def toInt32 (n : Nat) : Int :=
  if n % 4294967296 < 2147483648 then ((n % 4294967296 : Nat) : Int)
  else ((n % 4294967296 : Nat) : Int) - 4294967296

/-- OpenLog::size: send "size <fileName>", request 4 bytes, fold them through
the shift/or loop, return the accumulator as a signed 32-bit value. -/
def OpenLog.size (ol : OpenLog) (w : WireState) (fileName : List Nat) :
    Int × OpenLog × WireState :=
  let s := OpenLog.sendCommand2 ol w (asciiBytes "size") fileName
  let r := requestFrom s.2 ol.deviceAddress 4
  (toInt32 (r.1.foldl int32StepBE 0), ol, r.2)

/-- OpenLog::remove(thingToDelete, removeEverything): send "rm -rf <x>" or
"rm <x>", request 4 bytes, fold them through the shift/or loop; the
`int32_t` accumulator is returned through the `uint32_t` result type, i.e.
as the raw 32 accumulator bits. -/
def OpenLog.remove (ol : OpenLog) (w : WireState) (thingToDelete : List Nat)
    (removeEverything : Bool) : Nat × OpenLog × WireState :=
  let s := if removeEverything = true then
      OpenLog.sendCommand ol w (asciiBytes "rm") (asciiBytes "-rf")
        thingToDelete
    else
      OpenLog.sendCommand2 ol w (asciiBytes "rm") thingToDelete
  let r := requestFrom s.2 ol.deviceAddress 4
  (r.1.foldl int32StepBE 0, ol, r.2)

/-- OpenLog::removeFile delegates to remove with removeEverything = false. -/
def OpenLog.removeFile (ol : OpenLog) (w : WireState)
    (thingToDelete : List Nat) : Nat × OpenLog × WireState :=
  OpenLog.remove ol w thingToDelete false

/-- OpenLog::removeDirectory delegates to remove with
removeEverything = true. -/
def OpenLog.removeDirectory (ol : OpenLog) (w : WireState)
    (thingToDelete : List Nat) : Nat × OpenLog × WireState :=
  OpenLog.remove ol w thingToDelete true

/-- The `while (leftToRead > 0)` loop of OpenLog::read: request up to a
32-byte block, append whatever arrives to the buffer, subtract the requested
amount from `leftToRead`. -/
def OpenLog.readChunks (ol : OpenLog) (w : WireState) (buf : List Nat)
    (leftToRead : Nat) : List Nat × WireState :=
  if 0 < leftToRead then
    let toGet := if leftToRead < I2C_BUFFER_LENGTH then leftToRead
                 else I2C_BUFFER_LENGTH
    let r := requestFrom w ol.deviceAddress toGet
    OpenLog.readChunks ol r.2 (buf ++ r.1) (leftToRead - toGet)
  else (buf, w)
termination_by leftToRead
decreasing_by
  simp only [I2C_BUFFER_LENGTH] at *
  split <;> omega

/-- OpenLog::read(userBuffer, bufferSize, fileName, startingSpot): send
"read <fileName> <startingSpot>", then run the chunked read loop; the
returned list is the content of the caller's buffer. -/
def OpenLog.read (ol : OpenLog) (w : WireState) (fileName : List Nat)
    (bufferSize startingSpot : Nat) : List Nat × OpenLog × WireState :=
  let s := OpenLog.sendCommand ol w (asciiBytes "read") fileName
    (natToDecBytes startingSpot)
  let r := OpenLog.readChunks ol s.2 [] bufferSize
  (r.1, ol, r.2)

/-- OpenLog::searchDirectory: send "ls <options>"; on transmission success
set the listing flag and return true, otherwise leave it and return false. -/
def OpenLog.searchDirectory (ol : OpenLog) (w : WireState)
    (options : List Nat) : Bool × OpenLog × WireState :=
  let s := OpenLog.sendCommand2 ol w (asciiBytes "ls") options
  if s.1 = true then (true, { ol with searchStarted := true }, s.2)
  else (false, ol, s.2)

/-- The byte scan of OpenLog::getNextDirectoryItem: a NUL ends the name, a
255 as the very first received byte ends the listing (second component
true), anything else is appended to the name. -/
def scanName (itemName : List Nat) (charsReceived : Nat) :
    List Nat → List Nat × Bool
  | [] => (itemName, false)
  | b :: rest =>
    let incoming := b % 256
    if incoming = 0 then (itemName, false)
    else if charsReceived = 0 ∧ incoming = 255 then ([], true)
    else scanName (itemName ++ [incoming]) (charsReceived + 1) rest

/-- OpenLog::getNextDirectoryItem: nothing happens without a started search;
otherwise request one max-size chunk and scan it, clearing the listing flag
exactly when the end-of-list sentinel was seen. -/
def OpenLog.getNextDirectoryItem (ol : OpenLog) (w : WireState) :
    List Nat × OpenLog × WireState :=
  if ol.searchStarted = false then ([], ol, w)
  else
    let r := requestFrom w ol.deviceAddress I2C_BUFFER_LENGTH
    let sc := scanName [] 0 r.1
    if sc.2 = true then ([], { ol with searchStarted := false }, r.2)
    else (sc.1, ol, r.2)

/-- OpenLog::write(character): one transaction with the single raw byte. -/
def OpenLog.write (ol : OpenLog) (w : WireState) (character : Nat) :
    Nat × OpenLog × WireState :=
  let w1 := wireWrite (beginTransmission w ol.deviceAddress) (character % 256)
  let r := endTransmission w1
  if r.1 != 0 then (0, ol, r.2) else (1, ol, r.2)

/-- Print::print applied to the `const char subBuffer[32]`: a C string is
printed up to its first NUL byte.  (When the chunk contains no NUL the C
code walks past the end of the uninitialized array; this model shows the
best case, the chunk up to a NUL right after it.) -/
def printCString (chunk : List Nat) : List Nat :=
  chunk.takeWhile (fun b => ¬ b % 256 = 0)

/-- The chunking loop of OpenLog::write(buffer, size): each round copies
`buffer[startPoint, endPoint)` into the sub buffer and prints it as a C
string in its own transaction, aborting with 0 on a failed transmission.
The C code keeps `startPoint`/`endPoint` in 8-bit variables, so this
embedding is faithful for `size < 256`. -/
def OpenLog.writeBufferLoop (ol : OpenLog) (w : WireState)
    (buffer : List Nat) (size startPoint : Nat) : Nat × WireState :=
  if startPoint < size then
    let endPoint := if startPoint + I2C_BUFFER_LENGTH > size then size
                    else startPoint + I2C_BUFFER_LENGTH
    let subBuffer := (buffer.drop startPoint).take (endPoint - startPoint)
    let w1 := wirePrint (beginTransmission w ol.deviceAddress)
      (printCString subBuffer)
    let r := endTransmission w1
    if r.1 != 0 then (0, r.2)
    else OpenLog.writeBufferLoop ol r.2 buffer size endPoint
  else (size, w)
termination_by size - startPoint
decreasing_by
  simp only [I2C_BUFFER_LENGTH] at *
  split <;> omega

/-- OpenLog::write(buffer, size): run the chunking loop from the start. -/
def OpenLog.writeBuffer (ol : OpenLog) (w : WireState) (buffer : List Nat)
    (size : Nat) : Nat × OpenLog × WireState :=
  let r := OpenLog.writeBufferLoop ol w buffer size 0
  (r.1, ol, r.2)

/-- Per-iteration request sizes of the read loop: full 32-byte blocks and a
final remainder. -/
def chunkSizes (leftToRead : Nat) : List Nat :=
  if 0 < leftToRead then
    (if leftToRead < I2C_BUFFER_LENGTH then leftToRead
     else I2C_BUFFER_LENGTH) :: chunkSizes (leftToRead -
       (if leftToRead < I2C_BUFFER_LENGTH then leftToRead
        else I2C_BUFFER_LENGTH))
  else []
termination_by leftToRead
decreasing_by
  simp only [I2C_BUFFER_LENGTH] at *
  split <;> omega

/-- Following the spec's words: the end-of-list sentinel is a 255 as the very
first byte of a response chunk. -/
def firstByteIsFF (bytes : List Nat) : Bool :=
  match bytes with
  | [] => false
  | b :: _ => b % 256 == 255

/-- Sample session used by the concrete witnesses (field values are the ones
the claims leave unconstrained). -/
def sampleLog : OpenLog :=
  { deviceAddress := 42, escapeCharacter := 26, escapeCharacterCount := 2,
    searchStarted := false }

/-- Sample wire with an all-acknowledging, all-zero-chunk script. -/
def quietWire : WireState :=
  { rx := fun _ => [], rxIdx := 0, txRes := fun _ => 0, txIdx := 0,
    txAddr := 0, txBuf := [], sent := [], reqs := [], delivered := [] }

lemma foldl_wireWrite (l : List Nat) (w : WireState) :
    l.foldl wireWrite w = { w with txBuf := w.txBuf ++ l } := by
  induction l generalizing w with
  | nil => simp
  | cons b t ih =>
    simp only [List.foldl_cons, ih, wireWrite, List.append_assoc,
      List.cons_append, List.nil_append]

lemma sendCommand_spec (ol : OpenLog) (w : WireState)
    (c o1 o2 : List Nat) :
    OpenLog.sendCommand ol w c o1 o2 =
      ((w.txRes w.txIdx == 0),
       { w with txAddr := ol.deviceAddress, txBuf := [],
                txIdx := w.txIdx + 1,
                sent := w.sent ++ [(ol.deviceAddress,
                  specCommandFrame ol c o1 o2)] }) := by
  simp only [OpenLog.sendCommand, specCommandFrame, beginTransmission,
    wirePrint, endTransmission, foldl_wireWrite]
  by_cases h1 : o1 = [] <;> by_cases h2 : o2 = [] <;>
    by_cases hres : w.txRes w.txIdx = 0 <;>
    simp [h1, h2, hres, List.length_pos, List.append_assoc]

lemma scanName_pos (l : List Nat) (name : List Nat) (c : Nat) (hc : c ≠ 0) :
    (scanName name c l).2 = false := by
  induction l generalizing name c with
  | nil => simp [scanName]
  | cons b t ih =>
    rw [scanName]
    by_cases hb : b % 256 = 0
    · simp [hb]
    · have hand : ¬ (c = 0 ∧ b % 256 = 255) := by tauto
      simp only [if_neg hb, if_neg hand]
      exact ih _ _ (by omega)

lemma scanName_extends (l : List Nat) (name : List Nat) (c : Nat)
    (hc : c ≠ 0) :
    ∃ s, scanName name c l = (name ++ s, false) := by
  induction l generalizing name c with
  | nil => exact ⟨[], by simp [scanName]⟩
  | cons b t ih =>
    rw [scanName]
    by_cases hb : b % 256 = 0
    · exact ⟨[], by simp [hb]⟩
    · have hand : ¬ (c = 0 ∧ b % 256 = 255) := by tauto
      simp only [if_neg hb, if_neg hand]
      obtain ⟨s, hs⟩ := ih (name ++ [b % 256]) (c + 1) (by omega)
      exact ⟨b % 256 :: s, by simp [hs]⟩

lemma scanName_ff_head (l : List Nat) :
    scanName [] 0 (255 :: l) = ([], true) := by
  simp [scanName]

lemma scanName_sentinel (bytes : List Nat) :
    (scanName [] 0 bytes).2 = firstByteIsFF bytes := by
  cases bytes with
  | nil => simp [scanName, firstByteIsFF]
  | cons b t =>
    rw [scanName]
    simp only [firstByteIsFF]
    by_cases hb : b % 256 = 0
    · simp [hb]
    · by_cases hff : b % 256 = 255
      · simp [hb, hff]
      · have hand : ¬ (True ∧ b % 256 = 255) := by simp [hff]
        simp only [if_neg hb, if_neg hand]
        rw [scanName_pos t ([] ++ [b % 256]) (0 + 1) (by omega)]
        simp [hff]

lemma mul256_lor (x b : Nat) (hb : b < 256) : x * 256 ||| b = x * 256 + b := by
  apply Nat.eq_of_testBit_eq
  intro i
  rw [Nat.testBit_lor]
  have h256 : x * 256 = 2 ^ 8 * x := by ring
  have hb8 : b < 2 ^ 8 := by omega
  rw [h256, Nat.testBit_mul_pow_two_add x hb8 i]
  have hx : 2 ^ 8 * x = 2 ^ 8 * x + 0 := by omega
  conv_lhs => rw [hx, Nat.testBit_mul_pow_two_add x
    (by norm_num : (0 : Nat) < 2 ^ 8) i]
  by_cases hi : i < 8
  · simp [hi]
  · have hbf : b.testBit i = false := Nat.testBit_lt_two_pow (by
      have : (2 : Nat) ^ 8 ≤ 2 ^ i := Nat.pow_le_pow_right (by norm_num)
        (by omega)
      omega)
    simp [hi, hbf]

lemma int32StepBE_small (acc b : Nat) (hacc : acc < 16777216)
    (hb : b < 256) : int32StepBE acc b = acc * 256 + b := by
  unfold int32StepBE
  rw [Nat.shiftLeft_eq]
  norm_num
  rw [Nat.mod_eq_of_lt (by omega), Nat.mod_eq_of_lt hb]
  exact mul256_lor acc b hb

lemma foldBE_four (b0 b1 b2 b3 : Nat) (h0 : b0 < 256) (h1 : b1 < 256)
    (h2 : b2 < 256) (h3 : b3 < 256) :
    [b0, b1, b2, b3].foldl int32StepBE 0 =
      b0 * 16777216 + b1 * 65536 + b2 * 256 + b3 := by
  have e0 : int32StepBE 0 b0 = b0 := by
    rw [int32StepBE_small 0 b0 (by omega) h0]; omega
  have e1 : int32StepBE b0 b1 = b0 * 256 + b1 :=
    int32StepBE_small b0 b1 (by omega) h1
  have e2 : int32StepBE (b0 * 256 + b1) b2 = (b0 * 256 + b1) * 256 + b2 :=
    int32StepBE_small _ b2 (by nlinarith) h2
  have e3 : int32StepBE ((b0 * 256 + b1) * 256 + b2) b3 =
      ((b0 * 256 + b1) * 256 + b2) * 256 + b3 :=
    int32StepBE_small _ b3 (by nlinarith) h3
  simp only [List.foldl_cons, List.foldl_nil, e0, e1, e2, e3]
  ring

lemma chunkSizes_length (n : Nat) : (chunkSizes n).length = (n + 31) / 32 := by
  induction n using Nat.strong_induction_on with
  | _ n ih =>
    rw [chunkSizes]
    by_cases h0 : 0 < n
    · simp only [if_pos h0, List.length_cons]
      by_cases h32 : n < I2C_BUFFER_LENGTH
      · rw [if_pos h32, ih (n - n) (by omega)]
        simp only [I2C_BUFFER_LENGTH] at h32 ⊢
        omega
      · rw [if_neg h32, ih (n - I2C_BUFFER_LENGTH)
          (by simp only [I2C_BUFFER_LENGTH]; omega)]
        simp only [I2C_BUFFER_LENGTH] at h32 ⊢
        omega
    · rw [if_neg h0]
      simp only [List.length_nil]
      omega

lemma chunkSizes_le (n : Nat) :
    ∀ s ∈ chunkSizes n, s ≤ I2C_BUFFER_LENGTH := by
  induction n using Nat.strong_induction_on with
  | _ n ih =>
    rw [chunkSizes]
    by_cases h0 : 0 < n
    · simp only [if_pos h0]
      intro s hs
      rcases List.mem_cons.mp hs with h | h
      · subst h
        split <;> omega
      · refine ih _ ?_ s h
        have hI : I2C_BUFFER_LENGTH = 32 := rfl
        split <;> omega
    · simp [if_neg h0]

lemma readChunks_props (ol : OpenLog) (n : Nat) :
    ∀ w buf, (∀ k, I2C_BUFFER_LENGTH ≤ (w.rx k).length) →
      ∃ d, OpenLog.readChunks ol w buf n =
        (buf ++ d,
         { w with rxIdx := w.rxIdx + (chunkSizes n).length,
                  reqs := w.reqs ++ (chunkSizes n).map
                    (fun s => (ol.deviceAddress, s)),
                  delivered := w.delivered ++ d }) ∧ d.length = n := by
  induction n using Nat.strong_induction_on with
  | _ n ih =>
    intro w buf hrx
    rw [OpenLog.readChunks, chunkSizes]
    by_cases h0 : 0 < n
    · simp only [if_pos h0, requestFrom]
      set toGet := if n < I2C_BUFFER_LENGTH then n else I2C_BUFFER_LENGTH
        with htg
      have htoGet_le : toGet ≤ I2C_BUFFER_LENGTH := by
        rw [htg]; split <;> simp only [I2C_BUFFER_LENGTH] at * <;> omega
    -- the chunk actually received in this round
      have hchunklen : ((w.rx w.rxIdx).take toGet).length = toGet := by
        rw [List.length_take]
        have := hrx w.rxIdx
        omega
      have htoGet_pos : 0 < toGet := by
        have hI : I2C_BUFFER_LENGTH = 32 := rfl
        rw [htg]; split <;> omega
      have htoGet_n : toGet ≤ n := by
        rw [htg]; split
        · exact le_rfl
        · simp only [I2C_BUFFER_LENGTH] at *; omega
      obtain ⟨d, hd, hdlen⟩ := ih (n - toGet) (by omega)
        { w with rxIdx := w.rxIdx + 1,
                 reqs := w.reqs ++ [(ol.deviceAddress, toGet)],
                 delivered := w.delivered ++ (w.rx w.rxIdx).take toGet }
        (buf ++ (w.rx w.rxIdx).take toGet) (fun k => hrx k)
      refine ⟨(w.rx w.rxIdx).take toGet ++ d, ?_,
        by rw [List.length_append]; omega⟩
      rw [hd]
      simp only [List.append_assoc, List.length_cons, List.map_cons,
        List.cons_append, List.nil_append, List.singleton_append]
      have harith : w.rxIdx + 1 + (chunkSizes (n - toGet)).length =
          w.rxIdx + ((chunkSizes (n - toGet)).length + 1) := by omega
      rw [harith]
    · simp only [if_neg h0]
      refine ⟨[], ?_, by simp only [List.length_nil]; omega⟩
      simp only [List.append_nil, List.length_nil, Nat.add_zero,
        List.map_nil]

lemma and_one_testBit (x : Nat) :
    ((x &&& (1 <<< STATUS_SD_INIT_GOOD)) != 0) =
      Nat.testBit x STATUS_SD_INIT_GOOD := by
  have h1 : (1 : Nat) <<< STATUS_SD_INIT_GOOD = 1 := rfl
  have h0 : STATUS_SD_INIT_GOOD = 0 := rfl
  rw [h1, h0, Nat.and_one_is_mod, Nat.testBit_zero]
  rcases Nat.mod_two_eq_zero_or_one x with h | h <;> simp [h]

/-- C1: for every verb and optional arguments, the byte sequence sendCommand
transmits in its single bus transaction equals the escape character repeated
the session's escape-count times, then the verb, then a space and arg1 only
if arg1 is non-empty, then a space and arg2 only if arg2 is non-empty, with
no trailing spaces for empty arguments; no read request or further
transaction is issued, and the call returns false exactly when the
transport's end-of-transmission step reports a non-zero result. -/
theorem sendCommand_frame_correct (ol : OpenLog) (w : WireState)
    (verb arg1 arg2 : List Nat) :
    (OpenLog.sendCommand ol w verb arg1 arg2).2.sent =
      w.sent ++ [(ol.deviceAddress, specCommandFrame ol verb arg1 arg2)] ∧
    (OpenLog.sendCommand ol w verb arg1 arg2).2.reqs = w.reqs ∧
    (OpenLog.sendCommand ol w verb arg1 arg2).2.rx = w.rx ∧
    ((OpenLog.sendCommand ol w verb arg1 arg2).1 = false ↔
      w.txRes w.txIdx ≠ 0) := by
  rw [sendCommand_spec]
  refine ⟨rfl, rfl, rfl, ?_⟩
  by_cases h : w.txRes w.txIdx = 0 <;> simp [h]

/-- C3: setI2CAddress updates the session's stored peripheral address to the
new value whatever the transmission outcome was, and its boolean result
reflects exactly the transmission success reported by the transport. -/
theorem setI2CAddress_always_commits (ol : OpenLog) (w : WireState)
    (addr : Nat) :
    ((OpenLog.setI2CAddress ol w addr).2.1).deviceAddress = addr ∧
    ((OpenLog.setI2CAddress ol w addr).1 = true ↔ w.txRes w.txIdx = 0) := by
  simp only [OpenLog.setI2CAddress, OpenLog.sendCommand2, sendCommand_spec]
  by_cases h : w.txRes w.txIdx = 0 <;> simp [h]

/-- C8: begin stores the given address (and changes nothing else in the
session), issues exactly one status query — one "stat" command transaction
plus one 1-byte read request, never a transport configuration — and returns
true iff bit 0 (SD-init-good) of the returned status byte is set. -/
theorem begin_stores_and_probes (ol : OpenLog) (w : WireState) (addr : Nat) :
    ((OpenLog.begin ol w addr).2.1).deviceAddress = addr ∧
    ((OpenLog.begin ol w addr).2.1).searchStarted = ol.searchStarted ∧
    ((OpenLog.begin ol w addr).2.1).escapeCharacter = ol.escapeCharacter ∧
    ((OpenLog.begin ol w addr).2.1).escapeCharacterCount =
      ol.escapeCharacterCount ∧
    (OpenLog.begin ol w addr).2.2.sent = w.sent ++
      [(addr, specCommandFrame { ol with deviceAddress := addr }
        (asciiBytes "stat") [] [])] ∧
    (OpenLog.begin ol w addr).2.2.reqs = w.reqs ++ [(addr, 1)] ∧
    ((OpenLog.begin ol w addr).1 = true ↔
      Nat.testBit (wireReadByte ((w.rx w.rxIdx).take 1))
        STATUS_SD_INIT_GOOD = true) := by
  simp only [OpenLog.begin, OpenLog.getStatus, OpenLog.sendCommand1,
    sendCommand_spec, requestFrom, and_one_testBit]
  simp

/-- C5: when the peripheral's 4-byte reply is b0 b1 b2 b3 (first byte
received first), size decodes it big-endian as a signed 32-bit value and
remove decodes it big-endian as its unsigned 32-bit count — the first byte
received is the most significant. -/
theorem size_remove_bigendian :
    (∀ (ol : OpenLog) (w : WireState) (fileName : List Nat)
       (b0 b1 b2 b3 : Nat), b0 < 256 → b1 < 256 → b2 < 256 → b3 < 256 →
       w.rx w.rxIdx = [b0, b1, b2, b3] →
       (OpenLog.size ol w fileName).1 =
         toInt32 (b0 * 16777216 + b1 * 65536 + b2 * 256 + b3)) ∧
    (∀ (ol : OpenLog) (w : WireState) (thingToDelete : List Nat)
       (removeEverything : Bool) (b0 b1 b2 b3 : Nat),
       b0 < 256 → b1 < 256 → b2 < 256 → b3 < 256 →
       w.rx w.rxIdx = [b0, b1, b2, b3] →
       (OpenLog.remove ol w thingToDelete removeEverything).1 =
         b0 * 16777216 + b1 * 65536 + b2 * 256 + b3) := by
  have htake : ∀ b0 b1 b2 b3 : Nat,
      List.take 4 [b0, b1, b2, b3] = [b0, b1, b2, b3] := fun _ _ _ _ => rfl
  constructor
  · intro ol w fileName b0 b1 b2 b3 h0 h1 h2 h3 hchunk
    simp only [OpenLog.size, OpenLog.sendCommand2, sendCommand_spec,
      requestFrom, hchunk, htake]
    rw [foldBE_four b0 b1 b2 b3 h0 h1 h2 h3]
  · intro ol w thingToDelete removeEverything b0 b1 b2 b3 h0 h1 h2 h3 hchunk
    cases removeEverything with
    | false =>
      simp only [OpenLog.remove, OpenLog.sendCommand2, sendCommand_spec,
        requestFrom, hchunk, htake, Bool.false_eq_true, if_false]
      rw [foldBE_four b0 b1 b2 b3 h0 h1 h2 h3]
    | true =>
      simp only [OpenLog.remove, sendCommand_spec, requestFrom, hchunk,
        htake, if_true]
      rw [foldBE_four b0 b1 b2 b3 h0 h1 h2 h3]

/-- C7: when the "ls" transmission fails, searchDirectory returns false and
does not set the listing flag (starting from an idle session); the following
getNextDirectoryItem call returns the empty name and leaves the session and
the wire completely untouched — in particular no bus transaction happens. -/
theorem searchDirectory_failure_no_listing (ol : OpenLog) (w : WireState)
    (options : List Nat) (hflag : ol.searchStarted = false)
    (hfail : w.txRes w.txIdx ≠ 0) :
    (OpenLog.searchDirectory ol w options).1 = false ∧
    ((OpenLog.searchDirectory ol w options).2.1).searchStarted = false ∧
    OpenLog.getNextDirectoryItem (OpenLog.searchDirectory ol w options).2.1
        (OpenLog.searchDirectory ol w options).2.2 =
      ([], (OpenLog.searchDirectory ol w options).2.1,
       (OpenLog.searchDirectory ol w options).2.2) := by
  have hsd : OpenLog.searchDirectory ol w options =
      (false, ol, (OpenLog.sendCommand ol w (asciiBytes "ls") options []).2)
      := by
    simp only [OpenLog.searchDirectory, OpenLog.sendCommand2,
      sendCommand_spec]
    simp [hfail]
  rw [hsd]
  refine ⟨rfl, hflag, ?_⟩
  simp [OpenLog.getNextDirectoryItem, hflag]

/-- C2: with a listing in progress and the response stream "a.txt" NUL,
"b.txt" NUL, then a chunk starting with 255, three successive
getNextDirectoryItem calls return the bytes of "a.txt", the bytes of
"b.txt", and the empty name; the listing flag is still set after the first
two calls and is cleared by the third. -/
theorem getNextDirectoryItem_listing_sequence (ol : OpenLog) (w : WireState)
    (rest : List Nat) (hflag : ol.searchStarted = true)
    (h0 : w.rx w.rxIdx = [97, 46, 116, 120, 116, 0])
    (h1 : w.rx (w.rxIdx + 1) = [98, 46, 116, 120, 116, 0])
    (h2 : w.rx (w.rxIdx + 2) = 255 :: rest) :
    (OpenLog.getNextDirectoryItem ol w).1 = [97, 46, 116, 120, 116] ∧
    ((OpenLog.getNextDirectoryItem ol w).2.1).searchStarted = true ∧
    (OpenLog.getNextDirectoryItem (OpenLog.getNextDirectoryItem ol w).2.1
      (OpenLog.getNextDirectoryItem ol w).2.2).1 = [98, 46, 116, 120, 116] ∧
    ((OpenLog.getNextDirectoryItem (OpenLog.getNextDirectoryItem ol w).2.1
      (OpenLog.getNextDirectoryItem ol w).2.2).2.1).searchStarted = true ∧
    (OpenLog.getNextDirectoryItem
      (OpenLog.getNextDirectoryItem (OpenLog.getNextDirectoryItem ol w).2.1
        (OpenLog.getNextDirectoryItem ol w).2.2).2.1
      (OpenLog.getNextDirectoryItem (OpenLog.getNextDirectoryItem ol w).2.1
        (OpenLog.getNextDirectoryItem ol w).2.2).2.2).1 = [] ∧
    ((OpenLog.getNextDirectoryItem
      (OpenLog.getNextDirectoryItem (OpenLog.getNextDirectoryItem ol w).2.1
        (OpenLog.getNextDirectoryItem ol w).2.2).2.1
      (OpenLog.getNextDirectoryItem (OpenLog.getNextDirectoryItem ol w).2.1
        (OpenLog.getNextDirectoryItem ol w).2.2).2.2).2.1).searchStarted =
      false := by
  have hne : ¬ ol.searchStarted = false := by rw [hflag]; simp
  have hsc1 : scanName [] 0 (List.take 32 ([97, 46, 116, 120, 116, 0] :
      List Nat)) = ([97, 46, 116, 120, 116], false) := by decide
  have hsc2 : scanName [] 0 (List.take 32 ([98, 46, 116, 120, 116, 0] :
      List Nat)) = ([98, 46, 116, 120, 116], false) := by decide
  have htake3 : List.take 32 (255 :: rest) = 255 :: List.take 31 rest := rfl
  have c1 : OpenLog.getNextDirectoryItem ol w =
      ([97, 46, 116, 120, 116], ol,
       { w with rxIdx := w.rxIdx + 1,
                reqs := w.reqs ++ [(ol.deviceAddress, 32)],
                delivered := w.delivered ++ [97, 46, 116, 120, 116, 0] }) := by
    simp only [OpenLog.getNextDirectoryItem, requestFrom, I2C_BUFFER_LENGTH,
      if_neg hne, h0, hsc1]
    simp
  rw [c1]
  have c2 : OpenLog.getNextDirectoryItem ol
      { w with rxIdx := w.rxIdx + 1,
               reqs := w.reqs ++ [(ol.deviceAddress, 32)],
               delivered := w.delivered ++ [97, 46, 116, 120, 116, 0] } =
      ([98, 46, 116, 120, 116], ol,
       { w with rxIdx := w.rxIdx + 1 + 1,
                reqs := w.reqs ++ [(ol.deviceAddress, 32)] ++
                  [(ol.deviceAddress, 32)],
                delivered := w.delivered ++ [97, 46, 116, 120, 116, 0] ++
                  [98, 46, 116, 120, 116, 0] }) := by
    simp only [OpenLog.getNextDirectoryItem, requestFrom, I2C_BUFFER_LENGTH,
      if_neg hne, h1, hsc2]
    simp
  rw [c2]
  have c3 : OpenLog.getNextDirectoryItem ol
      { w with rxIdx := w.rxIdx + 1 + 1,
               reqs := w.reqs ++ [(ol.deviceAddress, 32)] ++
                 [(ol.deviceAddress, 32)],
               delivered := w.delivered ++ [97, 46, 116, 120, 116, 0] ++
                 [98, 46, 116, 120, 116, 0] } =
      ([], { ol with searchStarted := false },
       { w with rxIdx := w.rxIdx + 1 + 1 + 1,
                reqs := w.reqs ++ [(ol.deviceAddress, 32)] ++
                  [(ol.deviceAddress, 32)] ++ [(ol.deviceAddress, 32)],
                delivered := w.delivered ++ [97, 46, 116, 120, 116, 0] ++
                  [98, 46, 116, 120, 116, 0] ++
                  (255 :: List.take 31 rest) }) := by
    have hidx : w.rxIdx + 1 + 1 = w.rxIdx + 2 := by omega
    simp only [OpenLog.getNextDirectoryItem, requestFrom, I2C_BUFFER_LENGTH,
      if_neg hne, hidx, h2, htake3, scanName_ff_head]
    simp
  rw [c3]
  exact ⟨rfl, hflag, rfl, hflag, rfl, rfl⟩

lemma scanName_ff_later (name : List Nat) (c : Nat) (rest : List Nat)
    (hc : c ≠ 0) :
    scanName name c (255 :: rest) = scanName (name ++ [255]) (c + 1) rest := by
  rw [scanName]
  norm_num
  intro h
  exact absurd h hc

/-- C9: a 255 byte that is not the very first byte of a response chunk is
appended to the current item name as an ordinary character and does not end
the scan (first conjunct, at any position of the byte loop); consequently,
when a chunk starts with an ordinary byte followed by 255, the listing flag
stays set and the returned name begins with those two bytes, whereas a 255
as the very first byte of the chunk ends the listing: empty name and
cleared flag (last conjunct). -/
theorem ff_mid_chunk_ordinary :
    (∀ (name : List Nat) (c : Nat) (rest : List Nat), c ≠ 0 →
      scanName name c (255 :: rest) =
        scanName (name ++ [255]) (c + 1) rest) ∧
    (∀ (ol : OpenLog) (w : WireState) (b : Nat) (rest : List Nat),
      ol.searchStarted = true → w.rx w.rxIdx = b :: 255 :: rest →
      b % 256 ≠ 0 → b % 256 ≠ 255 →
      ((OpenLog.getNextDirectoryItem ol w).2.1).searchStarted = true ∧
      (OpenLog.getNextDirectoryItem ol w).1.take 2 = [b % 256, 255]) ∧
    (∀ (ol : OpenLog) (w : WireState) (rest : List Nat),
      ol.searchStarted = true → w.rx w.rxIdx = 255 :: rest →
      (OpenLog.getNextDirectoryItem ol w).1 = [] ∧
      ((OpenLog.getNextDirectoryItem ol w).2.1).searchStarted = false) := by
  refine ⟨scanName_ff_later, ?_, ?_⟩
  · intro ol w b rest hflag hchunk hb0 hbff
    have hne : ¬ ol.searchStarted = false := by rw [hflag]; simp
    have htake : List.take 32 (b :: 255 :: rest) =
        b :: 255 :: List.take 30 rest := rfl
    have hand : ¬ (True ∧ b % 256 = 255) := by simp [hbff]
    have hscan : scanName [] 0 (b :: 255 :: List.take 30 rest) =
        scanName ([] ++ [b % 256] ++ [255]) (0 + 1 + 1)
          (List.take 30 rest) := by
      rw [scanName]
      simp only [if_neg hb0, if_neg hand]
      rw [scanName_ff_later _ _ _ (by omega)]
    obtain ⟨s, hs⟩ := scanName_extends (List.take 30 rest)
      ([] ++ [b % 256] ++ [255]) (0 + 1 + 1) (by omega)
    simp only [OpenLog.getNextDirectoryItem, requestFrom,
      I2C_BUFFER_LENGTH, if_neg hne, hchunk, htake, hscan, hs]
    simp [hflag]
  · intro ol w rest hflag hchunk
    have hne : ¬ ol.searchStarted = false := by rw [hflag]; simp
    have htake : List.take 32 (255 :: rest) = 255 :: List.take 31 rest := rfl
    simp only [OpenLog.getNextDirectoryItem, requestFrom,
      I2C_BUFFER_LENGTH, if_neg hne, hchunk, htake, scanName_ff_head]
    simp

/-- C4: against a transport whose scripted chunks can satisfy every request
(each has at least the 32-byte transport maximum available), read issues
only requests of at most the transport maximum — exactly
ceil(bufferSize/32) of them, all addressed to the device — and fills the
caller's buffer with exactly bufferSize bytes, namely precisely the bytes
the transport delivered during the call, in delivery order. -/
theorem read_chunked_assembly (ol : OpenLog) (w : WireState)
    (fileName : List Nat) (bufferSize startingSpot : Nat)
    (hrx : ∀ k, I2C_BUFFER_LENGTH ≤ (w.rx k).length) :
    (OpenLog.read ol w fileName bufferSize startingSpot).1.length =
      bufferSize ∧
    (OpenLog.read ol w fileName bufferSize startingSpot).1 =
      (OpenLog.read ol w fileName bufferSize
        startingSpot).2.2.delivered.drop w.delivered.length ∧
    (OpenLog.read ol w fileName bufferSize startingSpot).2.2.reqs.length =
      w.reqs.length + (bufferSize + 31) / 32 ∧
    (∀ q ∈ (OpenLog.read ol w fileName bufferSize
        startingSpot).2.2.reqs.drop w.reqs.length,
      q.1 = ol.deviceAddress ∧ q.2 ≤ I2C_BUFFER_LENGTH) := by
  obtain ⟨d, hd, hdlen⟩ := readChunks_props ol bufferSize
    { w with txAddr := ol.deviceAddress, txBuf := [],
             txIdx := w.txIdx + 1,
             sent := w.sent ++ [(ol.deviceAddress,
               specCommandFrame ol (asciiBytes "read") fileName
                 (natToDecBytes startingSpot))] }
    [] (fun k => hrx k)
  have hread : OpenLog.read ol w fileName bufferSize startingSpot =
      ([] ++ d, ol,
       { w with txAddr := ol.deviceAddress, txBuf := [],
                txIdx := w.txIdx + 1,
                sent := w.sent ++ [(ol.deviceAddress,
                  specCommandFrame ol (asciiBytes "read") fileName
                    (natToDecBytes startingSpot))],
                rxIdx := w.rxIdx + (chunkSizes bufferSize).length,
                reqs := w.reqs ++ (chunkSizes bufferSize).map
                  (fun s => (ol.deviceAddress, s)),
                delivered := w.delivered ++ d }) := by
    simp only [OpenLog.read, sendCommand_spec]
    rw [hd]
  rw [hread]
  refine ⟨by simpa using hdlen, by simp, ?_, ?_⟩
  · simp [chunkSizes_length]
  · intro q hq
    have hq2 : q ∈ (chunkSizes bufferSize).map
        (fun s => (ol.deviceAddress, s)) := by
      simpa using hq
    obtain ⟨s, hs, hqs⟩ := List.mem_map.mp hq2
    constructor
    · rw [← hqs]
    · rw [← hqs]
      exact chunkSizes_le bufferSize s hs

/-- C10: the listing flag is touched by exactly two operations —
searchDirectory raises it exactly on transmission success (result true),
and getNextDirectoryItem lowers it exactly when the scan of the received
chunk reports the end-of-list sentinel, which happens precisely when the
first received byte is 255 (third conjunct) — while every other public
operation (begin, getVersion, getStatus, setI2CAddress, append, create,
makeDirectory, changeDirectory, size, read, removeFile, removeDirectory,
write, writeBuffer) leaves it unchanged. -/
theorem searchStarted_frame_conditions :
    (∀ (ol : OpenLog) (w : WireState) (options : List Nat),
      ((OpenLog.searchDirectory ol w options).2.1).searchStarted =
        ((OpenLog.searchDirectory ol w options).1 || ol.searchStarted)) ∧
    (∀ (ol : OpenLog) (w : WireState),
      ((OpenLog.getNextDirectoryItem ol w).2.1).searchStarted =
        (ol.searchStarted &&
         !(scanName [] 0 ((w.rx w.rxIdx).take I2C_BUFFER_LENGTH)).2)) ∧
    (∀ bytes : List Nat, (scanName [] 0 bytes).2 = firstByteIsFF bytes) ∧
    (∀ (ol : OpenLog) (w : WireState) (addr : Nat),
      ((OpenLog.begin ol w addr).2.1).searchStarted = ol.searchStarted) ∧
    (∀ (ol : OpenLog) (w : WireState),
      ((OpenLog.getVersion ol w).2.1).searchStarted = ol.searchStarted) ∧
    (∀ (ol : OpenLog) (w : WireState),
      ((OpenLog.getStatus ol w).2.1).searchStarted = ol.searchStarted) ∧
    (∀ (ol : OpenLog) (w : WireState) (addr : Nat),
      ((OpenLog.setI2CAddress ol w addr).2.1).searchStarted =
        ol.searchStarted) ∧
    (∀ (ol : OpenLog) (w : WireState) (f : List Nat),
      ((OpenLog.append ol w f).2.1).searchStarted = ol.searchStarted) ∧
    (∀ (ol : OpenLog) (w : WireState) (f : List Nat),
      ((OpenLog.create ol w f).2.1).searchStarted = ol.searchStarted) ∧
    (∀ (ol : OpenLog) (w : WireState) (f : List Nat),
      ((OpenLog.makeDirectory ol w f).2.1).searchStarted =
        ol.searchStarted) ∧
    (∀ (ol : OpenLog) (w : WireState) (f : List Nat),
      ((OpenLog.changeDirectory ol w f).2.1).searchStarted =
        ol.searchStarted) ∧
    (∀ (ol : OpenLog) (w : WireState) (f : List Nat),
      ((OpenLog.size ol w f).2.1).searchStarted = ol.searchStarted) ∧
    (∀ (ol : OpenLog) (w : WireState) (f : List Nat) (n s : Nat),
      ((OpenLog.read ol w f n s).2.1).searchStarted = ol.searchStarted) ∧
    (∀ (ol : OpenLog) (w : WireState) (f : List Nat),
      ((OpenLog.removeFile ol w f).2.1).searchStarted = ol.searchStarted) ∧
    (∀ (ol : OpenLog) (w : WireState) (f : List Nat),
      ((OpenLog.removeDirectory ol w f).2.1).searchStarted =
        ol.searchStarted) ∧
    (∀ (ol : OpenLog) (w : WireState) (c : Nat),
      ((OpenLog.write ol w c).2.1).searchStarted = ol.searchStarted) ∧
    (∀ (ol : OpenLog) (w : WireState) (b : List Nat) (n : Nat),
      ((OpenLog.writeBuffer ol w b n).2.1).searchStarted =
        ol.searchStarted) := by
  refine ⟨?_, ?_, scanName_sentinel, fun ol w addr => rfl, fun ol w => rfl,
    fun ol w => rfl, fun ol w addr => rfl, fun ol w f => rfl,
    fun ol w f => rfl, fun ol w f => rfl, fun ol w f => rfl,
    fun ol w f => rfl, fun ol w f n s => rfl, fun ol w f => rfl,
    fun ol w f => rfl, ?_, fun ol w b n => rfl⟩
  · intro ol w options
    simp only [OpenLog.searchDirectory, OpenLog.sendCommand2]
    cases h : (OpenLog.sendCommand ol w (asciiBytes "ls") options []).1 <;>
      simp [h]
  · intro ol w
    cases hs : ol.searchStarted with
    | false => simp [OpenLog.getNextDirectoryItem, hs]
    | true =>
      simp only [OpenLog.getNextDirectoryItem, requestFrom, hs]
      cases hsc : (scanName [] 0
          ((w.rx w.rxIdx).take I2C_BUFFER_LENGTH)).2 <;>
        simp [hsc, hs]
  · intro ol w c
    simp only [OpenLog.write]
    split <;> rfl

/-- C6, evaluation at the failing input: writing the 3-byte buffer
65 00 66 reports 3 bytes written, yet the single transaction the wire saw
carries only the byte 65 — Print::print on the copied sub buffer stops at
the first NUL, so the chunk is not transmitted as raw data. -/
theorem writeBuffer_nul_truncation :
    (OpenLog.writeBuffer sampleLog quietWire [65, 0, 66] 3).1 = 3 ∧
    (OpenLog.writeBuffer sampleLog quietWire [65, 0, 66] 3).2.2.sent =
      [(42, [65])] := by
  rw [OpenLog.writeBuffer, OpenLog.writeBufferLoop]
  norm_num [I2C_BUFFER_LENGTH, printCString, beginTransmission, wirePrint,
    endTransmission, sampleLog, quietWire]
  rw [OpenLog.writeBufferLoop]
  norm_num

/-- Session with a listing already in progress, for the concrete witnesses. -/
def searchLog : OpenLog :=
  { sampleLog with searchStarted := true }

/-- Wire scripted with the directory stream "a.txt" NUL, "b.txt" NUL, 255. -/
def wireC2 : WireState :=
  { quietWire with rx := fun k =>
      if k = 0 then [97, 46, 116, 120, 116, 0]
      else if k = 1 then [98, 46, 116, 120, 116, 0]
      else [255] }

/-- Wire scripted with 32-byte chunks for every read request. -/
def wireC4 : WireState :=
  { quietWire with rx := fun _ => List.replicate 32 7 }

/-- Wire scripted with the 4-byte reply 00 00 01 2C (decimal 300). -/
def wireC5 : WireState :=
  { quietWire with rx := fun _ => [0, 0, 1, 44] }

/-- Wire whose transactions all fail with result code 2. -/
def wireC7 : WireState :=
  { quietWire with txRes := fun _ => 2 }

/-- Wire scripted with a chunk carrying 255 in second position. -/
def wireC9 : WireState :=
  { quietWire with rx := fun _ => [65, 255, 66, 0] }

/-- Wire scripted with a chunk carrying 255 as its very first byte. -/
def wireC9ff : WireState :=
  { quietWire with rx := fun _ => [255, 1, 2] }

/-- Witness for C2 at the concrete session and wire script. -/
theorem getNextDirectoryItem_listing_sequence_witness :
    (OpenLog.getNextDirectoryItem searchLog wireC2).1 =
      [97, 46, 116, 120, 116] ∧
    ((OpenLog.getNextDirectoryItem searchLog wireC2).2.1).searchStarted =
      true ∧
    (OpenLog.getNextDirectoryItem
      (OpenLog.getNextDirectoryItem searchLog wireC2).2.1
      (OpenLog.getNextDirectoryItem searchLog wireC2).2.2).1 =
      [98, 46, 116, 120, 116] ∧
    ((OpenLog.getNextDirectoryItem
      (OpenLog.getNextDirectoryItem searchLog wireC2).2.1
      (OpenLog.getNextDirectoryItem searchLog wireC2).2.2).2.1).searchStarted
      = true ∧
    (OpenLog.getNextDirectoryItem
      (OpenLog.getNextDirectoryItem
        (OpenLog.getNextDirectoryItem searchLog wireC2).2.1
        (OpenLog.getNextDirectoryItem searchLog wireC2).2.2).2.1
      (OpenLog.getNextDirectoryItem
        (OpenLog.getNextDirectoryItem searchLog wireC2).2.1
        (OpenLog.getNextDirectoryItem searchLog wireC2).2.2).2.2).1 = [] ∧
    ((OpenLog.getNextDirectoryItem
      (OpenLog.getNextDirectoryItem
        (OpenLog.getNextDirectoryItem searchLog wireC2).2.1
        (OpenLog.getNextDirectoryItem searchLog wireC2).2.2).2.1
      (OpenLog.getNextDirectoryItem
        (OpenLog.getNextDirectoryItem searchLog wireC2).2.1
        (OpenLog.getNextDirectoryItem searchLog wireC2).2.2).2.2).2.1
      ).searchStarted = false :=
  getNextDirectoryItem_listing_sequence searchLog wireC2 [] rfl rfl rfl rfl

/-- Witness for C4: a 40-byte read against 32-byte chunks satisfies all the
stated hypotheses and conclusions, in particular it issues (40+31)/32 = 2
read requests and assembles exactly 40 bytes. -/
theorem read_chunked_assembly_witness :
    (∀ k, I2C_BUFFER_LENGTH ≤ (wireC4.rx k).length) ∧
    ((OpenLog.read sampleLog wireC4 [102] 40 0).1.length = 40 ∧
     (OpenLog.read sampleLog wireC4 [102] 40 0).1 =
       (OpenLog.read sampleLog wireC4 [102] 40
         0).2.2.delivered.drop wireC4.delivered.length ∧
     (OpenLog.read sampleLog wireC4 [102] 40 0).2.2.reqs.length =
       wireC4.reqs.length + (40 + 31) / 32 ∧
     (∀ q ∈ (OpenLog.read sampleLog wireC4 [102] 40
         0).2.2.reqs.drop wireC4.reqs.length,
       q.1 = sampleLog.deviceAddress ∧ q.2 ≤ I2C_BUFFER_LENGTH)) := by
  have hrx : ∀ k, I2C_BUFFER_LENGTH ≤ (wireC4.rx k).length := by
    intro k
    simp [wireC4, quietWire, I2C_BUFFER_LENGTH]
  exact ⟨hrx, read_chunked_assembly sampleLog wireC4 [102] 40 0 hrx⟩

/-- Witness for C5: the reply bytes 00 00 01 2C decode to 300 for both size
and remove. -/
theorem size_remove_bigendian_witness :
    (OpenLog.size sampleLog wireC5 [102]).1 = 300 ∧
    (OpenLog.remove sampleLog wireC5 [102] true).1 = 300 := by
  have h1 := size_remove_bigendian.1 sampleLog wireC5 [102] 0 0 1 44
    (by norm_num) (by norm_num) (by norm_num) (by norm_num) rfl
  have h2 := size_remove_bigendian.2 sampleLog wireC5 [102] true 0 0 1 44
    (by norm_num) (by norm_num) (by norm_num) (by norm_num) rfl
  constructor
  · rw [h1]; decide
  · rw [h2]

/-- Witness for C7 with a mocked always-failing transport. -/
theorem searchDirectory_failure_no_listing_witness :
    (OpenLog.searchDirectory sampleLog wireC7 [42]).1 = false ∧
    ((OpenLog.searchDirectory sampleLog wireC7 [42]).2.1).searchStarted =
      false ∧
    OpenLog.getNextDirectoryItem
        (OpenLog.searchDirectory sampleLog wireC7 [42]).2.1
        (OpenLog.searchDirectory sampleLog wireC7 [42]).2.2 =
      ([], (OpenLog.searchDirectory sampleLog wireC7 [42]).2.1,
       (OpenLog.searchDirectory sampleLog wireC7 [42]).2.2) :=
  searchDirectory_failure_no_listing sampleLog wireC7 [42] rfl (by decide)

/-- Witness for C9: a mid-chunk 255 is appended to the name with the flag
left set, and a first-byte 255 ends the listing. -/
theorem ff_mid_chunk_ordinary_witness :
    (scanName [9] 1 (255 :: [5]) = scanName ([9] ++ [255]) (1 + 1) [5]) ∧
    (((OpenLog.getNextDirectoryItem searchLog wireC9).2.1).searchStarted =
      true ∧
     (OpenLog.getNextDirectoryItem searchLog wireC9).1.take 2 =
       [65 % 256, 255]) ∧
    ((OpenLog.getNextDirectoryItem searchLog wireC9ff).1 = [] ∧
     ((OpenLog.getNextDirectoryItem searchLog
       wireC9ff).2.1).searchStarted = false) :=
  ⟨ff_mid_chunk_ordinary.1 [9] 1 [5] (by decide),
   ff_mid_chunk_ordinary.2.1 searchLog wireC9 65 [66, 0] rfl rfl
     (by decide) (by decide),
   ff_mid_chunk_ordinary.2.2 searchLog wireC9ff [1, 2] rfl rfl⟩
